import Mathlib

/-!
Verification of the RDF-conversion pipeline (canonicalization → ontology
alignment → graph assembly).

Shallow embedding of the Python sources:
  RDF-conversion/steps/step2_refine_llm.py   (term canonicalization)
  RDF-conversion/steps/step3_map_dbo.py      (ontology alignment)
  RDF-conversion/steps/step4_convert_rdf.py  (graph assembly)
  RDF-conversion/run_pipeline.py             (orchestrator)

Python dictionaries are embedded as association lists with
update-in-place insertion (`dinsert`), which preserves insertion order and
key uniqueness exactly as CPython dicts do.  Python string operations are
modelled character-wise; case mapping is modelled on the ASCII range, which
is the range exercised by the regular expressions in the source
(`[^a-zA-Z0-9]`, `\w`, `\d`).  Network calls (Ollama, SPARQL, the sentence
embedder) are modelled by quantifying over their possible results: an
arbitrary response string, an arbitrary fetched term table, an arbitrary
similarity function.
-/

/-! ## Python string primitives -/

/-- ASCII alphanumeric test, the character class `[a-zA-Z0-9]` of
`re.sub(r'[^a-zA-Z0-9]', '', ...)` in step2_refine_llm.py. -/
def isAlnumAscii (c : Char) : Bool :=
  c.isAlpha || c.isDigit

/-- `re.sub(r'[^a-zA-Z0-9]', '', s)`: drop every non-alphanumeric character. -/
def stripNonAlnum (s : String) : String :=
  String.mk (s.data.filter isAlnumAscii)

/-- Helper for `pySplitWS`: scan the characters, accumulating the current
word in reverse. -/
def wordsAux (cs : List Char) (cur : List Char) : List String :=
  match cs with
  | [] => if cur = [] then [] else [String.mk cur.reverse]
  | c :: rest =>
    if c.isWhitespace then
      if cur = [] then wordsAux rest [] else String.mk cur.reverse :: wordsAux rest []
    else wordsAux rest (c :: cur)

/-- Python `str.split()` with no argument: split on runs of whitespace,
never producing empty fields. -/
def pySplitWS (s : String) : List String :=
  wordsAux s.data []

/-- Python `str.capitalize()`: first character upper-cased, the rest
lower-cased (ASCII model). -/
def pyCapitalize (s : String) : String :=
  match s.data with
  | [] => ""
  | c :: cs => String.mk (c.toUpper :: cs.map Char.toLower)

/-- Python `str.lower()` (ASCII model). -/
def pyLower (s : String) : String :=
  String.mk (s.data.map Char.toLower)

/-! ## step2_refine_llm.py — heuristic canonicalizers -/

/-- `heuristic_type` (step2_refine_llm.py lines 62-66): PascalCase the
whitespace-separated words, strip non-alphanumerics, and fall back to
"Thing" when the result is empty (`... or "Thing"`). -/
def heuristic_type (type_name : String) : String :=
  let words := pySplitWS type_name
  let result := String.join (words.map pyCapitalize)
  let cleaned := stripNonAlnum result
  if cleaned = "" then "Thing" else cleaned

/-- The stop-word set of `heuristic_predicate` (step2_refine_llm.py
lines 71-72). -/
def stop_words : List String :=
  ["the", "a", "an", "is", "are", "was", "were", "to", "of",
   "in", "on", "at", "for", "with", "and", "or", "but"]

/-- The filtered word list of `heuristic_predicate` (line 73): lower-case,
split on whitespace, drop stop words and words of length ≤ 2, keep the
first three. -/
def predWords (desc : String) : List String :=
  (((pySplitWS (pyLower desc)).filter
      (fun w => !stop_words.contains w && w.length > 2)).take 3)

/-- `heuristic_predicate` (step2_refine_llm.py lines 69-77): camelCase the
filtered words and strip non-alphanumerics; when no word survives the
filter, return "relatedTo".  Note that the non-alphanumeric strip is
applied AFTER the emptiness test, so the function can return `""`. -/
def heuristic_predicate (desc : String) : String :=
  match predWords desc with
  | [] => "relatedTo"
  | w :: ws => stripNonAlnum (w ++ String.join (ws.map pyCapitalize))

/-! ## Python dictionaries

CPython dictionaries preserve insertion order; assigning to an existing key
replaces its value in place, assigning to a fresh key appends.  We embed
them as association lists with exactly that update rule. -/

/-- Dictionary assignment `d[k] = v`. -/
def dinsert {α : Type} (d : List (String × α)) (k : String) (v : α) :
    List (String × α) :=
  match d with
  | [] => [(k, v)]
  | (k2, v2) :: rest => if k2 = k then (k, v) :: rest else (k2, v2) :: dinsert rest k v

/-- Dictionary read `d.get(k)`. -/
def dlookup {α : Type} (d : List (String × α)) (k : String) : Option α :=
  match d with
  | [] => none
  | (k2, v) :: rest => if k2 = k then some v else dlookup rest k

/-- Dictionary update `d.update(e)`: assign every binding of `e` in order. -/
def dunion {α : Type} (d e : List (String × α)) : List (String × α) :=
  e.foldl (fun acc kv => dinsert acc kv.1 kv.2) d

/-! ## step2_refine_llm.py — response parsing and batch refinement -/

/-- Python `str.split('\n')`: split on every newline, keeping empty
fields (helper, accumulates the current field in reverse). -/
def linesAux (cs : List Char) (cur : List Char) : List String :=
  match cs with
  | [] => [String.mk cur.reverse]
  | c :: rest =>
    if c = '\n' then String.mk cur.reverse :: linesAux rest []
    else linesAux rest (c :: cur)

/-- Python `response.split('\n')`. -/
def pyLines (s : String) : List String :=
  linesAux s.data []

/-- Python `str.strip()`: drop leading and trailing whitespace. -/
def pyStrip (s : String) : String :=
  String.mk (((s.data.dropWhile Char.isWhitespace).reverse.dropWhile
      Char.isWhitespace).reverse)

/-- The character class `\w` of the response grammar `(\d+)\.\s*(\w+)`
(ASCII model). -/
def isWordChar (c : Char) : Bool :=
  isAlnumAscii c || c = '_'

/-- Decimal value of a digit run. -/
def digitsToNat (cs : List Char) : Nat :=
  cs.foldl (fun n c => n * 10 + (c.toNat - '0'.toNat)) 0

/-- `re.match(r'(\d+)\.\s*(\w+)', line.strip())` from the batch-refinement
functions (step2_refine_llm.py lines 90 and 119): a leading digit run,
a literal dot, optional whitespace, then a word-character run.  Returns
the parsed integer and the token, or `none` when the line fails the
grammar.  `re.match` anchors at the start only, so trailing junk after
the token is ignored, exactly as in the source. -/
def parseNumberedLine (line : String) : Option (Nat × String) :=
  let cs := (pyStrip line).data
  let digits := cs.takeWhile Char.isDigit
  let rest := cs.dropWhile Char.isDigit
  if digits = [] then none
  else
    match rest with
    | '.' :: rest2 =>
      let word := (rest2.dropWhile Char.isWhitespace).takeWhile isWordChar
      if word = [] then none else some (digitsToNat digits, String.mk word)
    | _ => none

/-- The parse phase shared by `refine_types_batch` (lines 88-94) and
`refine_predicates_batch` (lines 117-127): scan the response lines,
and for every parsable line whose 1-based index is in range, bind the
`idx`-th key of the batch to the (post-processed) token.  Out-of-range or
unparsable lines contribute nothing. -/
def parsePhase (keys : List String) (post : String → String) (response : String) :
    List (String × String) :=
  (pyLines response).foldl
    (fun d line =>
      match parseNumberedLine line with
      | some p =>
        if 1 ≤ p.1 ∧ p.1 - 1 < keys.length then
          dinsert d (keys.getD (p.1 - 1) "") (post p.2)
        else d
      | none => d)
    []

/-- The fill loops of `refine_types_batch` (lines 96-98) and
`refine_predicates_batch` (lines 129-131): every key of the batch that the
parse phase left unbound is bound to its heuristic token. -/
def fillMissing (h : String → String) (d : List (String × String))
    (keys : List String) : List (String × String) :=
  keys.foldl
    (fun d t => if (dlookup d t).isSome then d else dinsert d t (h t)) d

/-- `refine_types_batch` (step2_refine_llm.py lines 80-100), as a function
of the batch's key list and the raw LLM response text (`call_ollama`
returns `""` on any transport error, so every failure mode is an instance
of some response string). -/
def refine_types_batch (typeList : List String) (response : String) :
    List (String × String) :=
  fillMissing heuristic_type (parsePhase typeList id response) typeList

/-- Lower-casing of the first character of a parsed predicate token
(step2_refine_llm.py line 125); the token is a nonempty `\w+` match. -/
def lowerFirst (s : String) : String :=
  match s.data with
  | [] => ""
  | c :: cs => String.mk (c.toLower :: cs)

/-- `refine_predicates_batch` (step2_refine_llm.py lines 103-133), keyed by
the descriptions of the batch items (the source/target fields of the
tuples only feed the prompt text). -/
def refine_predicates_batch (batch : List String) (response : String) :
    List (String × String) :=
  fillMissing heuristic_predicate (parsePhase batch lowerFirst response) batch

/-- `BATCH_SIZE` (step2_refine_llm.py line 25). -/
def BATCH_SIZE : Nat := 10

/-- Fuel-driven worker for `toBatches`; the fuel is an upper bound on the
list length (every call site passes at least that), so the
fuel-exhaustion branch is never reached. -/
def toBatchesFuel : Nat → List String → List (List String)
  | _, [] => []
  | 0, _ :: _ => []
  | n + 1, x :: xs =>
    (x :: xs).take BATCH_SIZE :: toBatchesFuel n ((x :: xs).drop BATCH_SIZE)

/-- The predicate batching loop `for i in range(0, len(pred_items),
BATCH_SIZE)` of `run` (step2_refine_llm.py lines 194-195): successive
slices of `BATCH_SIZE` items. -/
def toBatches (l : List String) : List (List String) :=
  toBatchesFuel l.length l

/-- The type-refinement phase of `run` (step2_refine_llm.py lines 168-177):
one `refine_types_batch` call over ALL distinct types when the LLM is used,
otherwise the heuristic comprehension; then the artifact rows
`refined_types` are produced with `type_mappings.get(t, heuristic_type(t))`
(line 175). -/
def refineTypesStage (types : List String) (useLLM : Bool) (response : String) :
    List (String × String) :=
  let mappings :=
    if useLLM then refine_types_batch types response
    else types.map (fun t => (t, heuristic_type t))
  types.map (fun t => (t, (dlookup mappings t).getD (heuristic_type t)))

/-- The predicate-refinement phase of `run` (step2_refine_llm.py lines
184-224): when the LLM is used, each batch is refined with its own
response (`responses.getD i ""`, one response string per service call) and
the results are merged with `pred_mappings.update(...)`; otherwise the
heuristic loop runs.  The artifact rows are produced with
`pred_mappings.get(desc, heuristic_predicate(desc))` (line 223). -/
def refinePredsStage (preds : List String) (useLLM : Bool)
    (responses : List String) : List (String × String) :=
  let mappings :=
    if useLLM then
      (toBatches preds).enum.foldl
        (fun m p => dunion m (refine_predicates_batch p.2 (responses.getD p.1 ""))) []
    else preds.map (fun d => (d, heuristic_predicate d))
  preds.map (fun d => (d, (dlookup mappings d).getD (heuristic_predicate d)))

/-- The suggestion-service calls issued for the type category by `run`:
`refine_types_batch` is invoked exactly once, on the full distinct-type
list (step2_refine_llm.py line 169) — the type category is NOT batched. -/
def typeServiceCalls (types : List String) : List (List String) :=
  [types]

/-- The suggestion-service calls issued for the predicate category by
`run`: one call per `BATCH_SIZE`-slice (step2_refine_llm.py lines
194-206). -/
def predServiceCalls (preds : List String) : List (List String) :=
  toBatches preds

/-! ## step3_map_dbo.py — embedding-based ontology alignment

The sentence embedder assigns each text a normalized vector and the score
of a (query, candidate description) pair is their dot product.  We embed
this as an arbitrary similarity function `sim : String → String → Rat`
(rationals in place of IEEE floats; none of the verified properties
depends on float rounding of the similarity values themselves). -/

/-- `np.argmax` over a score list: the FIRST index attaining the maximum,
together with the maximal value.  `none` exactly on the empty list (where
`np.argmax` raises). -/
def bestIdx : List Rat → Option (Nat × Rat)
  | [] => none
  | x :: xs =>
    match bestIdx xs with
    | none => some (0, x)
    | some (i, v) => if x < v then some (i + 1, v) else some (0, x)

/-- The similarity row `np.dot(cand_emb, query_emb)` of
`EmbeddingMapper.find_best_match`: one score per candidate description,
in candidate iteration order. -/
def simScores (sim : String → String → Rat) (query : String)
    (candidates : List (String × String)) : List Rat :=
  candidates.map (fun c => sim query c.2)

/-- `EmbeddingMapper.find_best_match` (step3_map_dbo.py lines 161-179):
score every candidate description against the query, take `np.argmax`,
and return the candidate name at that index with its score. -/
def find_best_match (sim : String → String → Rat) (query : String)
    (candidates : List (String × String)) : Option (String × Rat) :=
  match bestIdx (simScores sim query candidates) with
  | some iv => some ((candidates.map Prod.fst).getD iv.1 "", iv.2)
  | none => none

/-- Round-half-even at integer precision, the rounding mode of Python's
builtin `round`. -/
def roundHalfEven (x : Rat) : Int :=
  let f := x.floor
  let r := x - f
  if r < 1 / 2 then f
  else if 1 / 2 < r then f + 1
  else if f % 2 = 0 then f else f + 1

/-- Python `round(score, 3)` (step3_map_dbo.py lines 207, 216, 247, 256),
over the rational similarity model. -/
def round3 (x : Rat) : Rat :=
  (roundHalfEven (x * 1000) : Rat) / 1000

/-- One registry entry produced by `map_to_dbo`.  The `fallback` key is
present (***True***) exactly in the fallback branch of the source; we model
presence/absence as a Bool, and the diagnostic `best_match` key as an
`Option`.  The pass-through `**info` fields are not modelled. -/
structure MappedEntry where
  term : String
  uri : String
  similarity : Rat
  fallback : Bool
  best_match : Option String
deriving DecidableEq

/-- The type branch of `map_to_dbo` (step3_map_dbo.py lines 202-220):
accept the best class when `score >= TYPE_SIMILARITY_THRESHOLD`, else fall
back to the literal class name "Thing", flag the entry, and record the
would-have-been best match. -/
def mapTypeEntry (dboNS : String) (threshold : Rat) (best : String)
    (score : Rat) : MappedEntry :=
  if threshold ≤ score then
    { term := best, uri := dboNS ++ best, similarity := round3 score,
      fallback := false, best_match := none }
  else
    { term := "Thing", uri := dboNS ++ "Thing", similarity := round3 score,
      fallback := true, best_match := some best }

/-- The predicate branch of `map_to_dbo` (step3_map_dbo.py lines 242-260):
accept the best property when `score >= PREDICATE_SIMILARITY_THRESHOLD`,
else fall back to the configured `FALLBACK_PREDICATE`. -/
def mapPredEntry (dboNS fallbackPred : String) (threshold : Rat)
    (best : String) (score : Rat) : MappedEntry :=
  if threshold ≤ score then
    { term := best, uri := dboNS ++ best, similarity := round3 score,
      fallback := false, best_match := none }
  else
    { term := fallbackPred, uri := dboNS ++ fallbackPred,
      similarity := round3 score, fallback := true, best_match := some best }

/-- One category loop of `map_to_dbo` (lines 197-226 for types, 237-260 for
predicates): every registry item `(orig, refined)` is scored against the
candidate table and turned into an entry; `none` models the `np.argmax`
exception on an empty candidate table. -/
def mapCategory (mk : String → Rat → MappedEntry)
    (sim : String → String → Rat) (cands : List (String × String)) :
    List (String × String) → Option (List (String × MappedEntry))
  | [] => some []
  | p :: rest =>
    match find_best_match sim p.2 cands, mapCategory mk sim cands rest with
    | some bs, some out => some ((p.1, mk bs.1 bs.2) :: out)
    | _, _ => none

/-- The slice of the step-2 artifact that step 3 consumes: the two
registries, keyed by original label, holding the refined token. -/
structure RefinedData where
  types : List (String × String)
  preds : List (String × String)

/-- The step-3 artifact. -/
structure MappedData where
  types : List (String × MappedEntry)
  preds : List (String × MappedEntry)

/-- `load_or_fetch` (step3_map_dbo.py lines 116-132): a populated cache is
returned as-is, otherwise the live fetch result is used (`fetch_dbo_*`
return `\x7b\x7d` — the empty table — when SPARQL fails). -/
def load_or_fetch (cache : Option (List (String × String)))
    (fetched : List (String × String)) : List (String × String) :=
  match cache with
  | some d => d
  | none => fetched

/-- `run` of step3_map_dbo.py (lines 275-309): `none` when the prior
artifact is missing, `none` when either reference table comes back empty
(`if not dbo_classes or not dbo_props`), otherwise the mapped artifact.
Returning `none` returns BEFORE the artifact write on line 305, so no
mapped artifact is produced in the failure cases. -/
def step3_run (sim : String → String → Rat) (dboNS fallbackPred : String)
    (thT thP : Rat) (refined : Option RefinedData)
    (cacheC cacheP : Option (List (String × String)))
    (fetchC fetchP : List (String × String)) : Option MappedData :=
  match refined with
  | none => none
  | some data =>
    let dbo_classes := load_or_fetch cacheC fetchC
    let dbo_props := load_or_fetch cacheP fetchP
    if dbo_classes = [] ∨ dbo_props = [] then none
    else
      match mapCategory (mapTypeEntry dboNS thT) sim dbo_classes data.types,
            mapCategory (mapPredEntry dboNS fallbackPred thP) sim dbo_props data.preds with
      | some mt, some mp => some { types := mt, preds := mp }
      | _, _ => none

/-- `run_steps` of run_pipeline.py (lines 48-61) over the step results in
order: the loop returns `False` at the first step whose `run()` returned
`None`, and `True` when every selected step succeeded. -/
def run_steps : List (Option Unit) → Bool
  | [] => true
  | none :: _ => false
  | some _ :: rest => run_steps rest

/-! ## step4_convert_rdf.py — graph assembly -/

/-- An RDF term in object position: a URI reference or a literal. -/
inductive RDFNode where
  | uri : String → RDFNode
  | lit : String → RDFNode
deriving DecidableEq

/-- A triple (subject URI, predicate URI, object). -/
abbrev Triple := String × String × RDFNode

/-- `RDF.type`. -/
def rdfType : String := "http://www.w3.org/1999/02/22-rdf-syntax-ns#type"

/-- `RDFS.label`. -/
def rdfsLabel : String := "http://www.w3.org/2000/01/rdf-schema#label"

/-- `rdflib.Graph.add`: a graph is a SET of triples, so adding an already
present triple is a no-op.  We keep insertion order for executability. -/
def gadd (g : List Triple) (t : Triple) : List Triple :=
  if t ∈ g then g else g ++ [t]

/-- An input entity row of the step-3 artifact
(`entity.get("original_type", "")` defaults a missing type to `""`). -/
structure Entity where
  id : String
  name : String
  original_type : String
deriving DecidableEq

/-- An input relationship row (`rel.get("original_description", "")`). -/
structure RelRow where
  source : String
  target : String
  original_description : String
deriving DecidableEq

/-- Upper-case hexadecimal digit. -/
def hexDigit (n : Nat) : Char :=
  if n < 10 then Char.ofNat ('0'.toNat + n) else Char.ofNat ('A'.toNat + n - 10)

/-- UTF-8 bytes of a character, as naturals. -/
def utf8Bytes (c : Char) : List Nat :=
  let n := c.toNat
  if n < 0x80 then [n]
  else if n < 0x800 then [0xC0 + n / 0x40, 0x80 + n % 0x40]
  else if n < 0x10000 then
    [0xE0 + n / 0x1000, 0x80 + n / 0x40 % 0x40, 0x80 + n % 0x40]
  else
    [0xF0 + n / 0x40000, 0x80 + n / 0x1000 % 0x40, 0x80 + n / 0x40 % 0x40,
     0x80 + n % 0x40]

/-- The characters `urllib.parse.quote` never encodes (letters, digits,
and `_.-~`); with `safe=""` everything else is percent-encoded. -/
def isUnreservedByte (n : Nat) : Bool :=
  (0x41 ≤ n && n ≤ 0x5A) || (0x61 ≤ n && n ≤ 0x7A) || (0x30 ≤ n && n ≤ 0x39) ||
  n = 0x5F || n = 0x2E || n = 0x2D || n = 0x7E

/-- `%XX` escape of one byte. -/
def pctByte (n : Nat) : String :=
  String.mk ['%', hexDigit (n / 16 % 16), hexDigit (n % 16)]

/-- `urllib.parse.quote(s, safe="")`. -/
def pyQuote (s : String) : String :=
  String.join ((s.data.flatMap utf8Bytes).map
    (fun n => if isUnreservedByte n then String.mk [Char.ofNat n] else pctByte n))

/-- `name.replace(" ", "_")`. -/
def replaceSpaces (s : String) : String :=
  String.mk (s.data.map (fun c => if c = ' ' then '_' else c))

/-- `create_entity_uri` (step4_convert_rdf.py lines 31-34): percent-encode
the display name with spaces replaced by underscores, then append an
underscore and the source id. -/
def create_entity_uri (name : String) (entity_id : String) : String :=
  pyQuote (replaceSpaces name) ++ "_" ++ entity_id

/-- The full node URI `GRAPHRAG[uri_id]` (line 77).  Because
`create_entity_uri` always contains an underscore, the URI is nonempty,
so the Python truthiness test `not source_uri` in the relationship loop
coincides with "name absent from the lookup", which is how we model it. -/
def entityUriOf (grNS : String) (e : Entity) : String :=
  grNS ++ create_entity_uri e.name e.id

/-- State of the entity loop (step4_convert_rdf.py lines 66-98). -/
structure EPhase where
  graph : List Triple
  lookup : List (String × String)
  added : Nat
  typed : Nat
  fb : Nat
deriving DecidableEq

/-- The object of the type triple an entity receives (lines 88-96): the
registry class URI when `original_type` is nonempty and registered,
otherwise the `FALLBACK_TYPE` URI. -/
def typeObjOf (fallbackType : String) (type_lookup : List (String × String))
    (e : Entity) : RDFNode :=
  if e.original_type ≠ "" ∧ (dlookup type_lookup e.original_type).isSome then
    RDFNode.uri ((dlookup type_lookup e.original_type).getD "")
  else RDFNode.uri fallbackType

/-- One iteration of the entity loop (step4_convert_rdf.py lines 70-98):
derive the URI, overwrite the name lookup, add the label triple, add
exactly one type triple (registered type or fallback), bump the
counters. -/
def addEntity (grNS fallbackType : String) (type_lookup : List (String × String))
    (st : EPhase) (e : Entity) : EPhase :=
  let u := entityUriOf grNS e
  let lk := dinsert st.lookup e.name u
  let g1 := gadd st.graph (u, rdfsLabel, RDFNode.lit e.name)
  if e.original_type ≠ "" ∧ (dlookup type_lookup e.original_type).isSome then
    { graph := gadd g1 (u, rdfType, typeObjOf fallbackType type_lookup e),
      lookup := lk, added := st.added + 1, typed := st.typed + 1, fb := st.fb }
  else
    { graph := gadd g1 (u, rdfType, typeObjOf fallbackType type_lookup e),
      lookup := lk, added := st.added + 1, typed := st.typed, fb := st.fb + 1 }

/-- State of the relationship loop (step4_convert_rdf.py lines 105-131). -/
structure RPhase where
  graph : List Triple
  added : Nat
  skipped : Nat
deriving DecidableEq

/-- Whether a relationship is skipped (lines 115-119): its source or
target display name is absent from the entity lookup.  The raw description
plays no role here. -/
def relSkipped (lookup : List (String × String)) (r : RelRow) : Bool :=
  (dlookup lookup r.source).isNone || (dlookup lookup r.target).isNone

/-- The predicate URI of a non-skipped relationship (lines 123-126): the
registry URI when the description is nonempty and registered, otherwise
the fixed `DBO.wikiPageWikiLink` fallback. -/
def predUriOf (dboNS : String) (pred_lookup : List (String × String))
    (r : RelRow) : String :=
  if r.original_description ≠ "" ∧
      (dlookup pred_lookup r.original_description).isSome then
    (dlookup pred_lookup r.original_description).getD ""
  else dboNS ++ "wikiPageWikiLink"

/-- One iteration of the relationship loop (step4_convert_rdf.py lines
109-129). -/
def addRel (dboNS : String) (pred_lookup : List (String × String))
    (lookup : List (String × String)) (st : RPhase) (r : RelRow) : RPhase :=
  match dlookup lookup r.source, dlookup lookup r.target with
  | some su, some tu =>
    { graph := gadd st.graph (su, predUriOf dboNS pred_lookup r, RDFNode.uri tu),
      added := st.added + 1, skipped := st.skipped }
  | _, _ => { graph := st.graph, added := st.added, skipped := st.skipped + 1 }

/-- The assembled output of `convert_to_rdf` (step4_convert_rdf.py lines
37-133): graph, final name lookup, and the five summary counters. -/
structure AssembleResult where
  graph : List Triple
  entity_lookup : List (String × String)
  entities_added : Nat
  entities_typed : Nat
  entities_fallback : Nat
  rels_added : Nat
  rels_skipped : Nat
deriving DecidableEq

/-- `convert_to_rdf` (step4_convert_rdf.py lines 37-133): run the entity
loop over the input entities in order, then the relationship loop over the
input relationships in order, against the completed entity lookup.
`type_lookup`/`pred_lookup` are the comprehensions of lines 51-60 (original
label ↦ `dbo_uri`). -/
def convert_to_rdf (grNS dboNS fallbackType : String)
    (type_lookup pred_lookup : List (String × String))
    (entities : List Entity) (rels : List RelRow) : AssembleResult :=
  let es := entities.foldl (addEntity grNS fallbackType type_lookup)
    { graph := [], lookup := [], added := 0, typed := 0, fb := 0 }
  let rs := rels.foldl (addRel dboNS pred_lookup es.lookup)
    { graph := es.graph, added := 0, skipped := 0 }
  { graph := rs.graph, entity_lookup := es.lookup,
    entities_added := es.added, entities_typed := es.typed,
    entities_fallback := es.fb, rels_added := rs.added,
    rels_skipped := rs.skipped }

/-! ## Witness-support constants -/

/-- A deterministic stand-in similarity function for concrete runs of the
aligner: the score of a candidate description is its length. -/
def simW : String → String → Rat :=
  fun _ d => (d.length : Rat)

/-- A concrete candidate table for concrete runs of the aligner. -/
def candsW : List (String × String) :=
  [("alpha", "xx"), ("beta", "yyy")]

/-! # Theorems

Helper lemmas first, then one theorem per verified claim (with its witness
or counterexample). -/

/-! ## Heuristic canonicalizer facts -/

theorem stripNonAlnum_all (s : String) :
    (stripNonAlnum s).data.all isAlnumAscii = true := by
  simp only [stripNonAlnum, List.all_eq_true]
  intro c hc
  exact (List.mem_filter.mp hc).2

theorem heuristic_type_all_alnum (t : String) :
    (heuristic_type t).data.all isAlnumAscii = true := by
  simp only [heuristic_type]
  split
  · decide
  · exact stripNonAlnum_all _

theorem heuristic_type_ne_empty (t : String) : heuristic_type t ≠ "" := by
  simp only [heuristic_type]
  split
  · decide
  · assumption

theorem heuristic_predicate_all_alnum (d : String) :
    (heuristic_predicate d).data.all isAlnumAscii = true := by
  unfold heuristic_predicate
  split
  · decide
  · exact stripNonAlnum_all _

theorem heuristic_predicate_no_words (d : String)
    (h : predWords d = []) : heuristic_predicate d = "relatedTo" := by
  unfold heuristic_predicate
  rw [h]

/-- C9 (counterexample): `heuristic_predicate` CAN return the empty string,
contradicting "it never returns an empty string": on the raw description
"---" the lone word survives the stop-word/length filter, so the
"relatedTo" sentinel is not used, and the final alphanumeric strip then
deletes every character. -/
theorem heuristic_predicate_empty_cex : heuristic_predicate "---" = "" := by
  decide

/-! Character-level casing facts backing the casing-convention clause of
the canonicalizer claim.  `Char.toLower`/`Char.toUpper` act on the basic
latin range, so a lowered character is never an ASCII capital and each
capitalized word contributes at most one ASCII capital. -/

theorem toLower_not_upper (c : Char) : (Char.toLower c).isUpper = false := by
  simp only [Char.toLower]
  split
  · rename_i h
    obtain ⟨h1, h2⟩ := h
    set n := c.toNat with hn
    interval_cases n <;> decide
  · rename_i h
    simp only [Char.isUpper]
    by_contra hb
    simp only [Bool.not_eq_false, Bool.and_eq_true, decide_eq_true_eq] at hb
    exact h ⟨hb.1, hb.2⟩

theorem pyCapitalize_upper_le (w : String) :
    ((pyCapitalize w).data.filter Char.isUpper).length ≤ 1 := by
  cases hw : w.data with
  | nil =>
    have he : pyCapitalize w = "" := by
      unfold pyCapitalize
      rw [hw]
    rw [he]
    decide
  | cons c cs =>
    have he : pyCapitalize w = String.mk (c.toUpper :: cs.map Char.toLower) := by
      unfold pyCapitalize
      rw [hw]
    rw [he]
    have h0 : (cs.map Char.toLower).filter Char.isUpper = [] := by
      refine List.filter_eq_nil_iff.mpr ?_
      intro a ha
      obtain ⟨b, _, hb⟩ := List.mem_map.mp ha
      rw [← hb, toLower_not_upper]
      simp
    show ((c.toUpper :: cs.map Char.toLower).filter Char.isUpper).length ≤ 1
    rw [List.filter_cons]
    split <;> simp [h0]

theorem foldl_append_data : ∀ (l : List String) (s : String),
    (l.foldl (fun r t => r ++ t) s).data = s.data ++ (l.map String.data).flatten := by
  intro l
  induction l with
  | nil => intro s; simp
  | cons x rest ih =>
    intro s
    rw [List.foldl_cons, ih, List.map_cons, List.flatten_cons,
      String.data_append, List.append_assoc]

theorem join_data (l : List String) :
    (String.join l).data = (l.map String.data).flatten := by
  have h : String.join l = l.foldl (fun r t => r ++ t) "" := rfl
  rw [h, foldl_append_data]
  rfl

theorem flattenCap_upper_le : ∀ (ws : List String),
    ((((ws.map pyCapitalize).map String.data).flatten.filter Char.isUpper)).length ≤
      ws.length := by
  intro ws
  induction ws with
  | nil => simp
  | cons w rest ih =>
    simp only [List.map_cons, List.flatten_cons, List.filter_append,
      List.length_append, List.length_cons]
    have h1 := pyCapitalize_upper_le w
    omega

theorem joinCap_upper_le (ws : List String) :
    ((String.join (ws.map pyCapitalize)).data.filter Char.isUpper).length ≤
      ws.length := by
  rw [join_data]
  exact flattenCap_upper_le ws

theorem stripNonAlnum_upper_le (s : String) :
    ((stripNonAlnum s).data.filter Char.isUpper).length ≤
      (s.data.filter Char.isUpper).length := by
  show (((s.data.filter isAlnumAscii).filter Char.isUpper)).length ≤ _
  rw [List.filter_comm]
  exact List.length_filter_le _ _

theorem wordsAux_chars (p : Char → Bool) : ∀ (cs cur : List Char),
    (∀ c ∈ cs, p c = true) → (∀ c ∈ cur, p c = true) →
    ∀ w ∈ wordsAux cs cur, ∀ c ∈ w.data, p c = true := by
  intro cs
  induction cs with
  | nil =>
    intro cur _ hcur w hw c hc
    unfold wordsAux at hw
    split at hw
    · cases hw
    · rw [List.mem_singleton] at hw
      subst hw
      exact hcur c (List.mem_reverse.mp hc)
  | cons c0 rest ih =>
    intro cur hcs hcur w hw c hc
    unfold wordsAux at hw
    split at hw
    · split at hw
      · exact ih [] (fun c2 h2 => hcs c2 (List.mem_cons_of_mem _ h2))
          (by simp) w hw c hc
      · rcases List.mem_cons.mp hw with he | hm
        · subst he
          exact hcur c (List.mem_reverse.mp hc)
        · exact ih [] (fun c2 h2 => hcs c2 (List.mem_cons_of_mem _ h2))
            (by simp) w hm c hc
    · refine ih (c0 :: cur) (fun c2 h2 => hcs c2 (List.mem_cons_of_mem _ h2))
        ?_ w hw c hc
      intro c2 h2
      rcases List.mem_cons.mp h2 with he | hm
      · rw [he]
        exact hcs c0 (List.mem_cons_self _ _)
      · exact hcur c2 hm

theorem pyLower_no_upper (s : String) :
    ∀ c ∈ (pyLower s).data, (!c.isUpper) = true := by
  intro c hc
  obtain ⟨b, _, hb⟩ := List.mem_map.mp hc
  rw [← hb]
  simp [toLower_not_upper]

theorem predWords_no_upper (d : String) :
    ∀ w ∈ predWords d, ∀ c ∈ w.data, (!c.isUpper) = true := by
  intro w hw
  have hw2 : w ∈ pySplitWS (pyLower d) :=
    (List.mem_filter.mp (List.mem_of_mem_take hw)).1
  exact wordsAux_chars (fun c => !c.isUpper) (pyLower d).data []
    (pyLower_no_upper d) (by simp) w hw2

/-- C9 (amended): heuristic canonicalization is a pure deterministic
function of the label (and the fixed stop-word set) yielding an
alphanumeric token assembled in the category's casing convention: for
types every whitespace-separated word is capitalized before the
non-alphanumeric strip, so a non-sentinel token carries at most one ASCII
capital per input word; for predicates the first retained word stays
lower-case and only the subsequent capitalized words can each contribute
one capital (camelCase).  `heuristic_type` never returns an empty string,
yielding the sentinel "Thing" when nothing usable remains;
`heuristic_predicate` yields the sentinel "relatedTo" when stop-word and
length filtering leave no word, but it can return the empty string when
the retained words contain no alphanumeric characters. -/
theorem heuristic_tokens_shape (t d : String) :
    (heuristic_type t).data.all isAlnumAscii = true ∧
    heuristic_type t ≠ "" ∧
    (heuristic_type t ≠ "Thing" →
      ((heuristic_type t).data.filter Char.isUpper).length ≤
        (pySplitWS t).length) ∧
    (heuristic_predicate d).data.all isAlnumAscii = true ∧
    (predWords d = [] → heuristic_predicate d = "relatedTo") ∧
    (∀ w ws, predWords d = w :: ws →
      ((heuristic_predicate d).data.filter Char.isUpper).length ≤ ws.length) := by
  refine ⟨heuristic_type_all_alnum t, heuristic_type_ne_empty t, ?_,
    heuristic_predicate_all_alnum d, heuristic_predicate_no_words d, ?_⟩
  · intro hT
    by_cases hcl :
        stripNonAlnum (String.join ((pySplitWS t).map pyCapitalize)) = ""
    · exfalso
      apply hT
      simp only [heuristic_type]
      rw [if_pos hcl]
    · have hval : heuristic_type t =
          stripNonAlnum (String.join ((pySplitWS t).map pyCapitalize)) := by
        simp only [heuristic_type]
        rw [if_neg hcl]
      rw [hval]
      exact le_trans (stripNonAlnum_upper_le _) (joinCap_upper_le _)
  · intro w ws hpw
    have hval : heuristic_predicate d =
        stripNonAlnum (w ++ String.join (ws.map pyCapitalize)) := by
      unfold heuristic_predicate
      rw [hpw]
    rw [hval]
    refine le_trans (stripNonAlnum_upper_le _) ?_
    rw [String.data_append, List.filter_append, List.length_append]
    have h0 : (w.data.filter Char.isUpper).length = 0 := by
      have hmem : w ∈ predWords d := by
        rw [hpw]
        exact List.mem_cons_self _ _
      rw [List.filter_eq_nil_iff.mpr ?_]
      · rfl
      · intro a ha
        have := predWords_no_upper d w hmem a ha
        simp only [Bool.not_eq_true'] at this
        simp [this]
    have h1 := joinCap_upper_le ws
    omega

/-- Witness for C9 at concrete labels: "big city!" canonicalizes to the
nonempty non-sentinel token "BigCity" with one capital per input word;
"is" (a stop word) leaves no usable material, so the predicate heuristic
yields the sentinel; and "related to-" retains two words, of which only
the second, capitalized one contributes a capital. -/
theorem heuristic_tokens_shape_witness :
    predWords "is" = [] ∧
    heuristic_predicate "is" = "relatedTo" ∧
    heuristic_type "big city!" ≠ "" ∧
    heuristic_type "big city!" ≠ "Thing" ∧
    ((heuristic_type "big city!").data.filter Char.isUpper).length ≤
      (pySplitWS "big city!").length ∧
    predWords "related to-" = ["related", "to-"] ∧
    ((heuristic_predicate "related to-").data.filter Char.isUpper).length ≤
      (["to-"] : List String).length := by
  refine ⟨by decide, ?_, (heuristic_tokens_shape "big city!" "is").2.1,
    by decide, ?_, by decide, ?_⟩
  · exact (heuristic_tokens_shape "big city!" "is").2.2.2.2.1 (by decide)
  · exact (heuristic_tokens_shape "big city!" "is").2.2.1 (by decide)
  · exact (heuristic_tokens_shape "big city!" "related to-").2.2.2.2.2
      "related" ["to-"] (by decide)

/-! ## Dictionary lemmas -/

theorem dlookup_dinsert {α : Type} (d : List (String × α)) (k k2 : String)
    (v : α) :
    dlookup (dinsert d k v) k2 = if k = k2 then some v else dlookup d k2 := by
  induction d with
  | nil => simp [dinsert, dlookup]
  | cons p rest ih =>
    obtain ⟨k3, v3⟩ := p
    by_cases h3 : k3 = k
    · subst h3
      by_cases h32 : k3 = k2 <;> simp [dinsert, dlookup, h32]
    · have h3s : ¬ k = k3 := fun hh => h3 hh.symm
      by_cases h32 : k3 = k2
      · subst h32
        simp [dinsert, dlookup, h3, h3s]
      · simp [dinsert, dlookup, h3, h32, ih]

theorem fillMissing_cons (h : String → String) (d : List (String × String))
    (k : String) (rest : List String) :
    fillMissing h d (k :: rest) =
      fillMissing h (if (dlookup d k).isSome then d else dinsert d k (h k)) rest := by
  simp only [fillMissing, List.foldl_cons]

theorem fillMissing_isSome_eq (h : String → String) (ks : List String)
    (d : List (String × String)) (t : String)
    (hs : (dlookup d t).isSome) :
    dlookup (fillMissing h d ks) t = dlookup d t := by
  induction ks generalizing d with
  | nil => simp [fillMissing]
  | cons k rest ih =>
    rw [fillMissing_cons]
    by_cases hk : (dlookup d k).isSome
    · rw [if_pos hk]
      exact ih d hs
    · rw [if_neg hk]
      have hne : k ≠ t := by
        intro he; subst he; exact hk hs
      have hl : dlookup (dinsert d k (h k)) t = dlookup d t := by
        rw [dlookup_dinsert, if_neg hne]
      rw [ih (dinsert d k (h k)) (by rw [hl]; exact hs), hl]

theorem fillMissing_mem_isSome (h : String → String) (ks : List String)
    (d : List (String × String)) (t : String) (ht : t ∈ ks) :
    (dlookup (fillMissing h d ks) t).isSome := by
  induction ks generalizing d with
  | nil => cases ht
  | cons k rest ih =>
    rw [fillMissing_cons]
    rcases List.mem_cons.mp ht with he | hm
    · subst he
      by_cases hk : (dlookup d t).isSome
      · rw [if_pos hk, fillMissing_isSome_eq h rest d t hk]
        exact hk
      · rw [if_neg hk]
        have hs : (dlookup (dinsert d t (h t)) t).isSome := by
          rw [dlookup_dinsert, if_pos rfl]; rfl
        rw [fillMissing_isSome_eq h rest _ t hs]
        exact hs
    · split
      · exact ih d hm
      · exact ih _ hm

theorem fillMissing_none_mem (h : String → String) (ks : List String)
    (d : List (String × String)) (t : String)
    (hn : dlookup d t = none) (ht : t ∈ ks) :
    dlookup (fillMissing h d ks) t = some (h t) := by
  induction ks generalizing d with
  | nil => cases ht
  | cons k rest ih =>
    rw [fillMissing_cons]
    by_cases he : k = t
    · subst he
      rw [if_neg (by simp [hn])]
      have hs : dlookup (dinsert d k (h k)) k = some (h k) := by
        rw [dlookup_dinsert, if_pos rfl]
      rw [fillMissing_isSome_eq h rest _ k (by rw [hs]; rfl), hs]
    · rcases List.mem_cons.mp ht with hee | hm
      · exact absurd hee.symm he
      · by_cases hk : (dlookup d k).isSome
        · rw [if_pos hk]; exact ih d hn hm
        · rw [if_neg hk]
          refine ih _ ?_ hm
          rw [dlookup_dinsert, if_neg he]
          exact hn

theorem dlookup_map_pair (g : String → String) (ts : List String)
    (t : String) (v : String)
    (h : dlookup (ts.map (fun x => (x, g x))) t = some v) : v = g t := by
  induction ts with
  | nil => cases h
  | cons x rest ih =>
    by_cases hx : x = t
    · subst hx
      simp only [List.map_cons, dlookup, if_pos rfl] at h
      exact (Option.some.injEq _ _ ▸ h).symm
    · simp only [List.map_cons, dlookup, if_neg hx] at h
      exact ih h

/-- C1: the canonicalization stage is total and never aborts.  For every
possible suggestion-service response (including the empty string that
`call_ollama` returns on any transport error) the stage emits exactly one
row per distinct raw label — the artifact key list IS the input label
list — and inside each batch every label the parsed response left unbound
receives its deterministic heuristic token. -/
theorem canonicalization_total (types preds : List String) (useLLM : Bool)
    (response : String) (responses : List String) :
    (refineTypesStage types useLLM response).map Prod.fst = types ∧
    (refinePredsStage preds useLLM responses).map Prod.fst = preds ∧
    (∀ t ∈ types, (dlookup (refine_types_batch types response) t).isSome) ∧
    (∀ d ∈ preds, (dlookup (refine_predicates_batch preds response) d).isSome) ∧
    (∀ t ∈ types, dlookup (parsePhase types id response) t = none →
      dlookup (refine_types_batch types response) t = some (heuristic_type t)) ∧
    (∀ d ∈ preds, dlookup (parsePhase preds lowerFirst response) d = none →
      dlookup (refine_predicates_batch preds response) d =
        some (heuristic_predicate d)) := by
  refine ⟨?_, ?_, ?_, ?_, ?_, ?_⟩
  · simp [refineTypesStage, Function.comp_def]
  · simp [refinePredsStage, Function.comp_def]
  · intro t ht
    exact fillMissing_mem_isSome heuristic_type types _ t ht
  · intro d hd
    exact fillMissing_mem_isSome heuristic_predicate preds _ d hd
  · intro t ht hn
    exact fillMissing_none_mem heuristic_type types _ t hn ht
  · intro d hd hn
    exact fillMissing_none_mem heuristic_predicate preds _ d hn hd

/-- Witness for C1: a one-label batch against a response in which the
label is absent (no line parses), so the heuristic fills it in. -/
theorem canonicalization_total_witness :
    ("colorful city" ∈ ["colorful city"]) ∧
    dlookup (parsePhase ["colorful city"] id "model refused") "colorful city" = none ∧
    dlookup (refine_types_batch ["colorful city"] "model refused") "colorful city" =
      some (heuristic_type "colorful city") ∧
    heuristic_type "colorful city" = "ColorfulCity" := by
  refine ⟨by decide, by decide, ?_, by decide⟩
  exact (canonicalization_total ["colorful city"] [] true "model refused"
    []).2.2.2.2.1 "colorful city" (by decide) (by decide)

/-! ## Batching lemmas -/

theorem toBatchesFuel_le (n : Nat) : ∀ (l : List String), l.length ≤ n →
    ∀ b ∈ toBatchesFuel n l, b.length ≤ BATCH_SIZE ∧ b ≠ [] := by
  induction n with
  | zero =>
    intro l hl b hb
    have : l = [] := List.eq_nil_of_length_eq_zero (Nat.le_zero.mp hl)
    subst this
    simp [toBatchesFuel] at hb
  | succ n ih =>
    intro l hl b hb
    match l with
    | [] => simp [toBatchesFuel] at hb
    | x :: xs =>
      rw [toBatchesFuel] at hb
      rcases List.mem_cons.mp hb with he | hm
      · subst he
        refine ⟨List.length_take_le BATCH_SIZE (x :: xs), ?_⟩
        simp [BATCH_SIZE]
      · refine ih ((x :: xs).drop BATCH_SIZE) ?_ b hm
        have hB : 1 ≤ BATCH_SIZE := by decide
        simp only [List.length_drop, List.length_cons] at hl ⊢
        omega

theorem toBatchesFuel_flatten (n : Nat) : ∀ (l : List String),
    l.length ≤ n → (toBatchesFuel n l).flatten = l := by
  induction n with
  | zero =>
    intro l hl
    have : l = [] := List.eq_nil_of_length_eq_zero (Nat.le_zero.mp hl)
    subst this
    simp [toBatchesFuel]
  | succ n ih =>
    intro l hl
    match l with
    | [] => simp [toBatchesFuel]
    | x :: xs =>
      rw [toBatchesFuel, List.flatten_cons]
      rw [ih ((x :: xs).drop BATCH_SIZE) (by
        have hB : 1 ≤ BATCH_SIZE := by decide
        simp only [List.length_drop, List.length_cons] at hl ⊢
        omega)]
      exact List.take_append_drop BATCH_SIZE (x :: xs)

/-- C10 (counterexample): with eleven distinct type labels the suggestion
service receives a single call carrying all eleven — the type category is
not split into batches of at most 10 (`refine_types_batch` is invoked once
on the full list, step2_refine_llm.py line 169). -/
theorem type_batching_cex :
    ¬ (∀ call ∈ typeServiceCalls
        ["t1", "t2", "t3", "t4", "t5", "t6", "t7", "t8", "t9", "t10", "t11"],
        call.length ≤ BATCH_SIZE) := by
  decide

/-- C10 (amended): relationship descriptions are submitted in successive
batches of at most `BATCH_SIZE = 10` per service call, and the batches
partition the input in order; type labels are submitted in one single
service call carrying the whole distinct-label list, regardless of its
size. -/
theorem batching_policy (types preds : List String) :
    (∀ b ∈ predServiceCalls preds, b.length ≤ BATCH_SIZE ∧ b ≠ []) ∧
    (predServiceCalls preds).flatten = preds ∧
    typeServiceCalls types = [types] := by
  refine ⟨?_, ?_, rfl⟩
  · exact toBatchesFuel_le preds.length preds (Nat.le_refl _)
  · exact toBatchesFuel_flatten preds.length preds (Nat.le_refl _)

/-- Witness for C10: twelve descriptions are split into a batch of ten and
a batch of two, which concatenate back to the input. -/
theorem batching_policy_witness :
    (["d1", "d2", "d3", "d4", "d5", "d6", "d7", "d8", "d9", "d10"] ∈
      predServiceCalls
        ["d1", "d2", "d3", "d4", "d5", "d6", "d7", "d8", "d9", "d10", "d11", "d12"]) ∧
    (["d1", "d2", "d3", "d4", "d5", "d6", "d7", "d8", "d9", "d10"].length ≤ BATCH_SIZE ∧
      ["d1", "d2", "d3", "d4", "d5", "d6", "d7", "d8", "d9", "d10"] ≠ []) ∧
    (predServiceCalls
        ["d1", "d2", "d3", "d4", "d5", "d6", "d7", "d8", "d9", "d10", "d11", "d12"]).flatten =
      ["d1", "d2", "d3", "d4", "d5", "d6", "d7", "d8", "d9", "d10", "d11", "d12"] := by
  refine ⟨by decide, ?_, ?_⟩
  · exact (batching_policy []
      ["d1", "d2", "d3", "d4", "d5", "d6", "d7", "d8", "d9", "d10", "d11", "d12"]).1
      ["d1", "d2", "d3", "d4", "d5", "d6", "d7", "d8", "d9", "d10"] (by decide)
  · exact (batching_policy []
      ["d1", "d2", "d3", "d4", "d5", "d6", "d7", "d8", "d9", "d10", "d11", "d12"]).2.1

/-! ## Aligner lemmas -/

theorem bestIdx_cons (x : Rat) (xs : List Rat) :
    bestIdx (x :: xs) =
      match bestIdx xs with
      | none => some (0, x)
      | some (i, v) => if x < v then some (i + 1, v) else some (0, x) := rfl

theorem bestIdx_first_argmax : ∀ (l : List Rat), l ≠ [] →
    ∃ i v, bestIdx l = some (i, v) ∧ i < l.length ∧ l.getD i 0 = v ∧
      (∀ j, j < l.length → l.getD j 0 ≤ v) ∧ (∀ j, j < i → l.getD j 0 < v) := by
  intro l
  induction l with
  | nil => intro h; exact absurd rfl h
  | cons x xs ih =>
    intro _
    match hxs : xs with
    | [] =>
      refine ⟨0, x, by simp [bestIdx], by simp, rfl, ?_,
        fun j hj => absurd hj (Nat.not_lt_zero j)⟩
      intro j hj
      simp only [List.length_cons, List.length_nil] at hj
      have hj0 : j = 0 := by omega
      subst hj0
      simp [List.getD]
    | y :: ys =>
      obtain ⟨i, v, hb, hi, hv, hle, hlt⟩ := ih (by simp)
      by_cases hx : x < v
      · refine ⟨i + 1, v, ?_, ?_, ?_, ?_, ?_⟩
        · rw [bestIdx_cons, hb]
          simp [hx]
        · simpa using Nat.succ_lt_succ hi
        · simpa using hv
        · intro j hj
          match j with
          | 0 => exact le_of_lt hx
          | Nat.succ j2 =>
            simp only [List.getD_cons_succ]
            exact hle j2 (by simpa using hj)
        · intro j hj
          match j with
          | 0 => exact hx
          | Nat.succ j2 =>
            simp only [List.getD_cons_succ]
            exact hlt j2 (by omega)
      · refine ⟨0, x, ?_, by simp, rfl, ?_,
          fun j hj => absurd hj (Nat.not_lt_zero j)⟩
        · rw [bestIdx_cons, hb]
          simp [hx]
        · intro j hj
          match j with
          | 0 => exact le_refl x
          | Nat.succ j2 =>
            simp only [List.getD_cons_succ]
            exact le_trans (hle j2 (by simpa using hj)) (not_lt.mp hx)

/-- C2: `find_best_match` is an exact argmax with first-occurrence tie
break: on every nonempty candidate set it returns the name and score at
an index whose score is ≥ every candidate's score, and every strictly
earlier candidate scores strictly less (so score ties are resolved in
favor of the first occurrence in candidate iteration order). -/
theorem find_best_match_argmax (sim : String → String → Rat) (query : String)
    (cands : List (String × String)) (h : cands ≠ []) :
    ∃ i, i < cands.length ∧
      find_best_match sim query cands =
        some ((cands.map Prod.fst).getD i "", (simScores sim query cands).getD i 0) ∧
      (∀ j, j < cands.length →
        (simScores sim query cands).getD j 0 ≤ (simScores sim query cands).getD i 0) ∧
      (∀ j, j < i →
        (simScores sim query cands).getD j 0 < (simScores sim query cands).getD i 0) := by
  have hne : simScores sim query cands ≠ [] := by
    simpa [simScores] using h
  obtain ⟨i, v, hb, hi, hv, hle, hlt⟩ := bestIdx_first_argmax _ hne
  have hlen : (simScores sim query cands).length = cands.length := by
    simp [simScores]
  refine ⟨i, by rw [← hlen]; exact hi, ?_, ?_, ?_⟩
  · rw [find_best_match, hb, hv]
  · intro j hj
    rw [hv]
    exact hle j (by rw [hlen]; exact hj)
  · intro j hj
    rw [hv]
    exact hlt j hj

/-- Witness for C2 at a concrete query and candidate table. -/
theorem find_best_match_argmax_witness :
    candsW ≠ [] ∧
    (∃ i, i < candsW.length ∧
      find_best_match simW "query" candsW =
        some ((candsW.map Prod.fst).getD i "", (simScores simW "query" candsW).getD i 0) ∧
      (∀ j, j < candsW.length →
        (simScores simW "query" candsW).getD j 0 ≤ (simScores simW "query" candsW).getD i 0) ∧
      (∀ j, j < i →
        (simScores simW "query" candsW).getD j 0 < (simScores simW "query" candsW).getD i 0)) :=
  ⟨by decide, find_best_match_argmax simW "query" candsW (by decide)⟩

/-- C3: threshold-gated acceptance.  When `find_best_match` scores
`(best, score)` for an aligned token, the registry entry built by
`map_to_dbo` carries `best` with no fallback flag whenever
`score ≥ threshold` (equality included), and otherwise carries the fixed
fallback term ("Thing" for types, the configured generic predicate for
predicates) with the fallback flag set and the would-have-been best match
and its (3-decimal-rounded) score recorded. -/
theorem threshold_gate (sim : String → String → Rat)
    (dboNS fbPred orig query : String) (thT thP : Rat)
    (cands : List (String × String)) (best : String) (score : Rat)
    (h : find_best_match sim query cands = some (best, score)) :
    mapCategory (mapTypeEntry dboNS thT) sim cands [(orig, query)] =
      some [(orig, mapTypeEntry dboNS thT best score)] ∧
    mapCategory (mapPredEntry dboNS fbPred thP) sim cands [(orig, query)] =
      some [(orig, mapPredEntry dboNS fbPred thP best score)] ∧
    (thT ≤ score → (mapTypeEntry dboNS thT best score).term = best ∧
      (mapTypeEntry dboNS thT best score).uri = dboNS ++ best ∧
      (mapTypeEntry dboNS thT best score).fallback = false) ∧
    (score < thT → (mapTypeEntry dboNS thT best score).term = "Thing" ∧
      (mapTypeEntry dboNS thT best score).fallback = true ∧
      (mapTypeEntry dboNS thT best score).best_match = some best ∧
      (mapTypeEntry dboNS thT best score).similarity = round3 score) ∧
    (thP ≤ score → (mapPredEntry dboNS fbPred thP best score).term = best ∧
      (mapPredEntry dboNS fbPred thP best score).uri = dboNS ++ best ∧
      (mapPredEntry dboNS fbPred thP best score).fallback = false) ∧
    (score < thP → (mapPredEntry dboNS fbPred thP best score).term = fbPred ∧
      (mapPredEntry dboNS fbPred thP best score).fallback = true ∧
      (mapPredEntry dboNS fbPred thP best score).best_match = some best ∧
      (mapPredEntry dboNS fbPred thP best score).similarity = round3 score) := by
  refine ⟨?_, ?_, ?_, ?_, ?_, ?_⟩
  · simp [mapCategory, h]
  · simp [mapCategory, h]
  · intro hge
    simp [mapTypeEntry, if_pos hge]
  · intro hlt
    simp [mapTypeEntry, if_neg (not_le.mpr hlt)]
  · intro hge
    simp [mapPredEntry, if_pos hge]
  · intro hlt
    simp [mapPredEntry, if_neg (not_le.mpr hlt)]

/-- Witness for C3 at a concrete aligner run whose score 2 sits exactly ON
the type threshold 2 (counted as a match, not a fallback) and strictly
below the predicate threshold 5 (fallback, diagnostics recorded). -/
theorem threshold_gate_witness :
    find_best_match (fun _ d => (d.length : Rat)) "q" [("a", "xx")] =
      some ("a", 2) ∧
    ((2 : Rat) ≤ 2) ∧ ((2 : Rat) < 5) ∧
    ((mapTypeEntry "d" 2 "a" 2).term = "a" ∧
      (mapTypeEntry "d" 2 "a" 2).uri = "d" ++ "a" ∧
      (mapTypeEntry "d" 2 "a" 2).fallback = false) ∧
    ((mapPredEntry "d" "rel" 5 "a" 2).term = "rel" ∧
      (mapPredEntry "d" "rel" 5 "a" 2).fallback = true ∧
      (mapPredEntry "d" "rel" 5 "a" 2).best_match = some "a" ∧
      (mapPredEntry "d" "rel" 5 "a" 2).similarity = round3 2) := by
  refine ⟨by decide, by norm_num, by norm_num, ?_, ?_⟩
  · exact (threshold_gate (fun _ d => (d.length : Rat)) "d" "rel" "o" "q" 2 5
      [("a", "xx")] "a" 2 (by decide)).2.2.1 (by norm_num)
  · exact (threshold_gate (fun _ d => (d.length : Rat)) "d" "rel" "o" "q" 2 5
      [("a", "xx")] "a" 2 (by decide)).2.2.2.2.2 (by norm_num)

/-! ## Orchestrator lemmas -/

theorem run_steps_halts_at_none (pre post : List (Option Unit))
    (hp : ∀ r ∈ pre, r ≠ none) :
    run_steps (pre ++ none :: post) = false := by
  induction pre with
  | nil => rfl
  | cons r rest ih =>
    match r with
    | none => exact absurd rfl (hp none (List.mem_cons_self _ _))
    | some _ =>
      rw [List.cons_append, run_steps]
      exact ih (fun r2 h2 => hp r2 (List.mem_cons_of_mem _ h2))

/-- C4: when either reference term table is empty after the cache read and
the live fetch (an empty cache file counts, as does a failed fetch — both
paths yield the empty table), step 3's `run` returns the explicit failure
signal `None` before any artifact is written, and the orchestrator loop
aborts the run at that step with a failing status. -/
theorem empty_reference_abort (sim : String → String → Rat)
    (dboNS fbPred : String) (thT thP : Rat) (refined : Option RefinedData)
    (cacheC cacheP : Option (List (String × String)))
    (fetchC fetchP : List (String × String))
    (h : load_or_fetch cacheC fetchC = [] ∨ load_or_fetch cacheP fetchP = []) :
    step3_run sim dboNS fbPred thT thP refined cacheC cacheP fetchC fetchP = none ∧
    ∀ pre post, (∀ r ∈ pre, r ≠ none) →
      run_steps (pre ++
        (step3_run sim dboNS fbPred thT thP refined cacheC cacheP fetchC
          fetchP).map (fun _ => ()) :: post) = false := by
  have h1 : step3_run sim dboNS fbPred thT thP refined cacheC cacheP fetchC
      fetchP = none := by
    match refined with
    | none => rfl
    | some data =>
      simp only [step3_run]
      rw [if_pos h]
  refine ⟨h1, ?_⟩
  intro pre post hp
  rw [h1]
  exact run_steps_halts_at_none pre post hp

/-- Witness for C4: the class cache holds an empty table and the class
fetch fails (empty result); step 3 signals failure and a run that reaches
it (steps 1 and 2 succeeded) aborts. -/
theorem empty_reference_abort_witness :
    (load_or_fetch (some []) [] = ([] : List (String × String)) ∨
      load_or_fetch none [("p1", "related to")] = []) ∧
    step3_run simW "dbo:" "wikiPageWikiLink" 1 1
      (some { types := [("T", "Thing")], preds := [] }) (some [])
      none [] [("p1", "related to")] = none ∧
    run_steps ([some (), some ()] ++
      (step3_run simW "dbo:" "wikiPageWikiLink" 1 1
        (some { types := [("T", "Thing")], preds := [] }) (some [])
        none [] [("p1", "related to")]).map (fun _ => ()) :: []) = false := by
  refine ⟨Or.inl rfl, ?_, ?_⟩
  · exact (empty_reference_abort simW "dbo:" "wikiPageWikiLink" 1 1
      (some { types := [("T", "Thing")], preds := [] }) (some []) none []
      [("p1", "related to")] (Or.inl rfl)).1
  · exact (empty_reference_abort simW "dbo:" "wikiPageWikiLink" 1 1
      (some { types := [("T", "Thing")], preds := [] }) (some []) none []
      [("p1", "related to")] (Or.inl rfl)).2 [some (), some ()] []
      (by decide)

/-! ## Graph assembly lemmas -/

theorem mem_gadd_self (g : List Triple) (t : Triple) : t ∈ gadd g t := by
  unfold gadd
  split
  · assumption
  · simp

theorem mem_gadd_of_mem (g : List Triple) (t t2 : Triple) (h : t ∈ g) :
    t ∈ gadd g t2 := by
  unfold gadd
  split
  · exact h
  · exact List.mem_append_left _ h

theorem mem_gadd_cases (g : List Triple) (t t2 : Triple) (h : t ∈ gadd g t2) :
    t ∈ g ∨ t = t2 := by
  unfold gadd at h
  split at h
  · exact Or.inl h
  · rcases List.mem_append.mp h with h1 | h2
    · exact Or.inl h1
    · exact Or.inr (List.mem_singleton.mp h2)

theorem dlookup_mem_values {α : Type} (d : List (String × α)) (k : String)
    (v : α) (h : dlookup d k = some v) : v ∈ d.map Prod.snd := by
  induction d with
  | nil => cases h
  | cons p rest ih =>
    obtain ⟨k2, v2⟩ := p
    by_cases hk : k2 = k
    · simp only [dlookup, if_pos hk] at h
      simp [← Option.some_inj.mp h]
    · simp only [dlookup, if_neg hk] at h
      simp [ih h]

theorem addEntity_graph (grNS fbT : String) (tl : List (String × String))
    (st : EPhase) (e : Entity) :
    (addEntity grNS fbT tl st e).graph =
      gadd (gadd st.graph (entityUriOf grNS e, rdfsLabel, RDFNode.lit e.name))
        (entityUriOf grNS e, rdfType, typeObjOf fbT tl e) := by
  simp only [addEntity]
  split <;> rfl

theorem addEntity_lookup (grNS fbT : String) (tl : List (String × String))
    (st : EPhase) (e : Entity) :
    (addEntity grNS fbT tl st e).lookup =
      dinsert st.lookup e.name (entityUriOf grNS e) := by
  simp only [addEntity]
  split <;> rfl

theorem entityFold_graph_mono (grNS fbT : String) (tl : List (String × String)) :
    ∀ (es : List Entity) (st : EPhase) (t : Triple), t ∈ st.graph →
      t ∈ (es.foldl (addEntity grNS fbT tl) st).graph := by
  intro es
  induction es with
  | nil => intro st t h; exact h
  | cons e rest ih =>
    intro st t h
    rw [List.foldl_cons]
    apply ih
    rw [addEntity_graph]
    exact mem_gadd_of_mem _ _ _ (mem_gadd_of_mem _ _ _ h)

theorem entityFold_graph_shape (grNS fbT : String) (tl : List (String × String)) :
    ∀ (es : List Entity) (st : EPhase) (t : Triple),
      t ∈ (es.foldl (addEntity grNS fbT tl) st).graph →
      t ∈ st.graph ∨ ∃ e ∈ es,
        t = (entityUriOf grNS e, rdfsLabel, RDFNode.lit e.name) ∨
        t = (entityUriOf grNS e, rdfType, typeObjOf fbT tl e) := by
  intro es
  induction es with
  | nil => intro st t h; exact Or.inl h
  | cons e rest ih =>
    intro st t h
    rw [List.foldl_cons] at h
    rcases ih _ t h with h1 | ⟨e2, he2, hor⟩
    · rw [addEntity_graph] at h1
      rcases mem_gadd_cases _ _ _ h1 with h2 | h2
      · rcases mem_gadd_cases _ _ _ h2 with h3 | h3
        · exact Or.inl h3
        · exact Or.inr ⟨e, List.mem_cons_self _ _, Or.inl h3⟩
      · exact Or.inr ⟨e, List.mem_cons_self _ _, Or.inr h2⟩
    · exact Or.inr ⟨e2, List.mem_cons_of_mem _ he2, hor⟩

theorem entityFold_type_mem (grNS fbT : String) (tl : List (String × String)) :
    ∀ (es : List Entity) (st : EPhase) (e : Entity), e ∈ es →
      (entityUriOf grNS e, rdfType, typeObjOf fbT tl e) ∈
        (es.foldl (addEntity grNS fbT tl) st).graph := by
  intro es
  induction es with
  | nil => intro st e h; cases h
  | cons e0 rest ih =>
    intro st e h
    rw [List.foldl_cons]
    rcases List.mem_cons.mp h with he | hm
    · subst he
      apply entityFold_graph_mono
      rw [addEntity_graph]
      exact mem_gadd_self _ _
    · exact ih _ e hm

theorem entityFold_lookup (grNS fbT : String) (tl : List (String × String)) :
    ∀ (es : List Entity) (st : EPhase) (name : String),
      dlookup (es.foldl (addEntity grNS fbT tl) st).lookup name =
        match (es.filter (fun e => e.name = name)).getLast? with
        | some e => some (entityUriOf grNS e)
        | none => dlookup st.lookup name := by
  intro es
  induction es with
  | nil => intro st name; rfl
  | cons e rest ih =>
    intro st name
    rw [List.foldl_cons, ih, List.filter_cons]
    cases hfl : rest.filter (fun e => e.name = name) with
    | nil =>
      by_cases hn : e.name = name
      · simp [hn, addEntity_lookup, dlookup_dinsert]
      · simp [hn, addEntity_lookup, dlookup_dinsert]
    | cons e2 l =>
      by_cases hn : e.name = name
      · simp [hn, List.getLast?_cons]
      · simp [hn, List.getLast?_cons]

theorem addRel_cases (dboNS : String) (pl lk : List (String × String))
    (st : RPhase) (r : RelRow) :
    (relSkipped lk r = true ∧ addRel dboNS pl lk st r =
      { graph := st.graph, added := st.added, skipped := st.skipped + 1 }) ∨
    (relSkipped lk r = false ∧ ∃ su tu, dlookup lk r.source = some su ∧
      dlookup lk r.target = some tu ∧ addRel dboNS pl lk st r =
        { graph := gadd st.graph (su, predUriOf dboNS pl r, RDFNode.uri tu),
          added := st.added + 1, skipped := st.skipped }) := by
  cases hs : dlookup lk r.source with
  | none => exact Or.inl ⟨by simp [relSkipped, hs], by simp [addRel, hs]⟩
  | some su =>
    cases ht : dlookup lk r.target with
    | none => exact Or.inl ⟨by simp [relSkipped, hs, ht], by simp [addRel, hs, ht]⟩
    | some tu =>
      exact Or.inr ⟨by simp [relSkipped, hs, ht], su, tu, rfl, rfl,
        by simp [addRel, hs, ht]⟩

theorem relFold_graph_mono (dboNS : String) (pl lk : List (String × String)) :
    ∀ (rels : List RelRow) (st : RPhase) (t : Triple), t ∈ st.graph →
      t ∈ (rels.foldl (addRel dboNS pl lk) st).graph := by
  intro rels
  induction rels with
  | nil => intro st t h; exact h
  | cons r rest ih =>
    intro st t h
    rw [List.foldl_cons]
    apply ih
    rcases addRel_cases dboNS pl lk st r with ⟨_, he⟩ | ⟨_, su, tu, _, _, he⟩
    · rw [he]; exact h
    · rw [he]; exact mem_gadd_of_mem _ _ _ h

theorem relFold_graph_shape (dboNS : String) (pl lk : List (String × String)) :
    ∀ (rels : List RelRow) (st : RPhase) (t : Triple),
      t ∈ (rels.foldl (addRel dboNS pl lk) st).graph →
      t ∈ st.graph ∨ t.2.1 ∈ pl.map Prod.snd ∨
        t.2.1 = dboNS ++ "wikiPageWikiLink" := by
  intro rels
  induction rels with
  | nil => intro st t h; exact Or.inl h
  | cons r rest ih =>
    intro st t h
    rw [List.foldl_cons] at h
    rcases ih _ t h with h1 | h1
    · rcases addRel_cases dboNS pl lk st r with ⟨_, he⟩ | ⟨_, su, tu, _, _, he⟩
      · rw [he] at h1
        exact Or.inl h1
      · rw [he] at h1
        rcases mem_gadd_cases _ _ _ h1 with h2 | h2
        · exact Or.inl h2
        · subst h2
          unfold predUriOf
          split
          · rename_i hcond
            cases hv : dlookup pl r.original_description with
            | none => exact absurd (hv ▸ hcond.2) (by simp)
            | some v =>
              refine Or.inr (Or.inl ?_)
              simpa [hv] using dlookup_mem_values pl r.original_description v hv
          · exact Or.inr (Or.inr rfl)
    · exact Or.inr h1

theorem relFold_counts (dboNS : String) (pl lk : List (String × String)) :
    ∀ (rels : List RelRow) (st : RPhase),
      (rels.foldl (addRel dboNS pl lk) st).added =
        st.added + (rels.filter (fun r => !relSkipped lk r)).length ∧
      (rels.foldl (addRel dboNS pl lk) st).skipped =
        st.skipped + (rels.filter (fun r => relSkipped lk r)).length := by
  intro rels
  induction rels with
  | nil => intro st; simp
  | cons r rest ih =>
    intro st
    rw [List.foldl_cons]
    rcases addRel_cases dboNS pl lk st r with ⟨hsk, he⟩ | ⟨hsk, su, tu, _, _, he⟩
    · rw [he]
      obtain ⟨iha, ihs⟩ := ih
        { graph := st.graph, added := st.added, skipped := st.skipped + 1 }
      refine ⟨?_, ?_⟩
      · rw [iha, List.filter_cons, hsk]
        simp
      · rw [ihs, List.filter_cons, hsk]
        simp [Nat.add_assoc, Nat.add_comm 1]
    · rw [he]
      obtain ⟨iha, ihs⟩ := ih
        { graph := gadd st.graph (su, predUriOf dboNS pl r, RDFNode.uri tu),
          added := st.added + 1, skipped := st.skipped }
      refine ⟨?_, ?_⟩
      · rw [iha, List.filter_cons, hsk]
        simp [Nat.add_assoc, Nat.add_comm 1]
      · rw [ihs, List.filter_cons, hsk]
        simp

theorem relFold_triple_mem (dboNS : String) (pl lk : List (String × String)) :
    ∀ (rels : List RelRow) (st : RPhase) (r : RelRow), r ∈ rels →
      relSkipped lk r = false →
      ((dlookup lk r.source).getD "", predUriOf dboNS pl r,
        RDFNode.uri ((dlookup lk r.target).getD "")) ∈
        (rels.foldl (addRel dboNS pl lk) st).graph := by
  intro rels
  induction rels with
  | nil => intro st r h; cases h
  | cons r0 rest ih =>
    intro st r h hns
    rw [List.foldl_cons]
    rcases List.mem_cons.mp h with he | hm
    · subst he
      rcases addRel_cases dboNS pl lk st r with ⟨hsk, _⟩ | ⟨_, su, tu, hs, ht, he2⟩
      · rw [hsk] at hns; cases hns
      · apply relFold_graph_mono
        rw [he2, hs, ht]
        exact mem_gadd_self _ _
    · exact ih _ r hm hns

/-- C8 (counterexample): the derivation is NOT collision-free for every
pair of distinct source ids — underscores in names and ids can realign:
(name "a_b", id "c") and (name "a", id "b_c") both derive "a_b_c". -/
theorem create_entity_uri_collision :
    create_entity_uri "a_b" "c" = create_entity_uri "a" "b_c" ∧
    ("c" : String) ≠ "b_c" ∧
    create_entity_uri "a_b" "c" = "a_b_c" := by
  refine ⟨by decide, by decide, by decide⟩

/-- C8 (amended): the derivation is a deterministic function of name and
id, and for two entities with the SAME display name, distinct source ids
give distinct node identifiers (this is the duplicate-display-name case
the guarantee is for); across different display names distinct ids alone
do not guarantee distinctness. -/
theorem entity_uri_distinct_same_name (name id1 id2 : String)
    (h : id1 ≠ id2) :
    create_entity_uri name id1 ≠ create_entity_uri name id2 := by
  intro heq
  apply h
  have hd := congrArg String.data heq
  simp only [create_entity_uri, String.data_append] at hd
  exact String.ext (List.append_cancel_left hd)

/-- Witness for C8 at a concrete duplicated display name. -/
theorem entity_uri_distinct_same_name_witness :
    ("1" : String) ≠ "2" ∧
    create_entity_uri "X" "1" ≠ create_entity_uri "X" "2" :=
  ⟨by decide, entity_uri_distinct_same_name "X" "1" "2" (by decide)⟩

/-- C6: the assembler's name → node lookup is last-writer-wins.  For every
entity list processed in input order, the completed lookup (the one the
relationship loop resolves endpoints against) maps each display name to
the node URI of the LAST entity in input order bearing that name — in
particular, with A(id 1, "X") before B(id 2, "X"), an endpoint "X"
resolves to B's node. -/
theorem name_lookup_last_writer (grNS dboNS fbT : String)
    (tl pl : List (String × String)) (entities : List Entity)
    (rels : List RelRow) (name : String) :
    dlookup (convert_to_rdf grNS dboNS fbT tl pl entities rels).entity_lookup
        name =
      ((entities.filter (fun e => e.name = name)).getLast?).map
        (entityUriOf grNS) := by
  have hlk : (convert_to_rdf grNS dboNS fbT tl pl entities rels).entity_lookup =
      (entities.foldl (addEntity grNS fbT tl)
        { graph := [], lookup := [], added := 0, typed := 0, fb := 0 }).lookup := rfl
  rw [hlk, entityFold_lookup]
  cases hfl : (entities.filter (fun e => e.name = name)).getLast? with
  | none => rfl
  | some e2 => rfl

theorem relFold_counts_zero (dboNS : String) (pl lk : List (String × String))
    (rels : List RelRow) (g0 : List Triple) :
    (rels.foldl (addRel dboNS pl lk) { graph := g0, added := 0, skipped := 0 }).added =
      (rels.filter (fun r => !relSkipped lk r)).length ∧
    (rels.foldl (addRel dboNS pl lk) { graph := g0, added := 0, skipped := 0 }).skipped =
      (rels.filter (fun r => relSkipped lk r)).length := by
  obtain ⟨a, b⟩ := relFold_counts dboNS pl lk rels
    { graph := g0, added := 0, skipped := 0 }
  constructor
  · rw [a]
    exact Nat.zero_add _
  · rw [b]
    exact Nat.zero_add _

/-- C7: relationship accounting.  In every assembly run,
`rels_added + rels_skipped` equals the number of input relationships; a
relationship is counted skipped exactly when its source or target name is
absent from the entity lookup, and counted added exactly otherwise — and
every added relationship contributes its triple, whose predicate falls
back to the fixed generic link predicate when the description is empty or
unregistered (the description never causes a skip). -/
theorem rel_accounting (grNS dboNS fbT : String)
    (tl pl : List (String × String)) (entities : List Entity)
    (rels : List RelRow) (res : AssembleResult)
    (hres : res = convert_to_rdf grNS dboNS fbT tl pl entities rels) :
    res.rels_added + res.rels_skipped = rels.length ∧
    res.rels_added =
      (rels.filter (fun r => !relSkipped res.entity_lookup r)).length ∧
    res.rels_skipped =
      (rels.filter (fun r => relSkipped res.entity_lookup r)).length ∧
    (∀ r ∈ rels, relSkipped res.entity_lookup r = false →
      ((dlookup res.entity_lookup r.source).getD "", predUriOf dboNS pl r,
        RDFNode.uri ((dlookup res.entity_lookup r.target).getD "")) ∈
        res.graph) := by
  subst hres
  obtain ⟨hca, hcs⟩ := relFold_counts_zero dboNS pl
    (entities.foldl (addEntity grNS fbT tl)
      { graph := [], lookup := [], added := 0, typed := 0, fb := 0 }).lookup rels
    (entities.foldl (addEntity grNS fbT tl)
      { graph := [], lookup := [], added := 0, typed := 0, fb := 0 }).graph
  have h1 : (convert_to_rdf grNS dboNS fbT tl pl entities rels).rels_added =
      (rels.filter (fun r =>
        !relSkipped
          (convert_to_rdf grNS dboNS fbT tl pl entities rels).entity_lookup
          r)).length := hca
  have h2 : (convert_to_rdf grNS dboNS fbT tl pl entities rels).rels_skipped =
      (rels.filter (fun r =>
        relSkipped
          (convert_to_rdf grNS dboNS fbT tl pl entities rels).entity_lookup
          r)).length := hcs
  refine ⟨?_, h1, h2, ?_⟩
  · rw [h1, h2, Nat.add_comm]
    exact (List.length_eq_length_filter_add
      (fun r => relSkipped
        (convert_to_rdf grNS dboNS fbT tl pl entities rels).entity_lookup
        r)).symm
  · intro r hr hns
    exact relFold_triple_mem dboNS pl _ rels _ r hr hns

/-- Witness for C7: two entities, one resolvable relationship with an
unregistered description (added via the generic fallback predicate) and
one relationship with an unknown endpoint (skipped). -/
theorem rel_accounting_witness :
    (relSkipped (convert_to_rdf "http://ex/" "http://dbo/" "http://owl/Thing"
        [] [] [{ id := "1", name := "A", original_type := "" },
               { id := "2", name := "B", original_type := "" }]
        [{ source := "A", target := "B", original_description := "x" },
         { source := "A", target := "Z", original_description := "y" }]).entity_lookup
      { source := "A", target := "B", original_description := "x" } = false) ∧
    ((convert_to_rdf "http://ex/" "http://dbo/" "http://owl/Thing"
        [] [] [{ id := "1", name := "A", original_type := "" },
               { id := "2", name := "B", original_type := "" }]
        [{ source := "A", target := "B", original_description := "x" },
         { source := "A", target := "Z", original_description := "y" }]).rels_added +
      (convert_to_rdf "http://ex/" "http://dbo/" "http://owl/Thing"
        [] [] [{ id := "1", name := "A", original_type := "" },
               { id := "2", name := "B", original_type := "" }]
        [{ source := "A", target := "B", original_description := "x" },
         { source := "A", target := "Z", original_description := "y" }]).rels_skipped =
      ([{ source := "A", target := "B", original_description := "x" },
        { source := "A", target := "Z", original_description := "y" }] :
          List RelRow).length) ∧
    (((dlookup (convert_to_rdf "http://ex/" "http://dbo/" "http://owl/Thing"
        [] [] [{ id := "1", name := "A", original_type := "" },
               { id := "2", name := "B", original_type := "" }]
        [{ source := "A", target := "B", original_description := "x" },
         { source := "A", target := "Z", original_description := "y" }]).entity_lookup
          "A").getD "",
      predUriOf "http://dbo/" []
        { source := "A", target := "B", original_description := "x" },
      RDFNode.uri ((dlookup (convert_to_rdf "http://ex/" "http://dbo/"
          "http://owl/Thing"
          [] [] [{ id := "1", name := "A", original_type := "" },
                 { id := "2", name := "B", original_type := "" }]
          [{ source := "A", target := "B", original_description := "x" },
           { source := "A", target := "Z", original_description := "y" }]).entity_lookup
            "B").getD "")) ∈
      (convert_to_rdf "http://ex/" "http://dbo/" "http://owl/Thing"
        [] [] [{ id := "1", name := "A", original_type := "" },
               { id := "2", name := "B", original_type := "" }]
        [{ source := "A", target := "B", original_description := "x" },
         { source := "A", target := "Z", original_description := "y" }]).graph) := by
  refine ⟨by decide, ?_, ?_⟩
  · exact (rel_accounting "http://ex/" "http://dbo/" "http://owl/Thing"
      [] [] [{ id := "1", name := "A", original_type := "" },
             { id := "2", name := "B", original_type := "" }]
      [{ source := "A", target := "B", original_description := "x" },
       { source := "A", target := "Z", original_description := "y" }] _ rfl).1
  · exact (rel_accounting "http://ex/" "http://dbo/" "http://owl/Thing"
      [] [] [{ id := "1", name := "A", original_type := "" },
             { id := "2", name := "B", original_type := "" }]
      [{ source := "A", target := "B", original_description := "x" },
       { source := "A", target := "Z", original_description := "y" }] _ rfl).2.2.2
      { source := "A", target := "B", original_description := "x" }
      (by decide) (by decide)

/-- C5 (counterexample): an entity node CAN receive two type triples.  The
derived identifiers of (id "c", name "a_b") and (id "b_c", name "a")
collide on the single node ".../a_b_c"; the first entity's registered type
and the second one's fallback type are both asserted on that node. -/
theorem type_triple_two_on_one_node :
    ((convert_to_rdf "http://ex/" "http://dbo/" "http://owl/Thing"
        [("T", "http://dbo/X")] []
        [{ id := "c", name := "a_b", original_type := "T" },
         { id := "b_c", name := "a", original_type := "" }] []).graph.filter
      (fun t => t.1 = "http://ex/a_b_c" ∧ t.2.1 = rdfType)).length = 2 := by
  decide

/-- C5 (amended): every entity contributes exactly one type triple — the
aligned class URI when its `original_type` is nonempty and registered,
the fixed fallback class otherwise — and provided the derived node
identifiers are pairwise distinct (and no registered predicate URI
collides with the rdf:type predicate), every entity node carries exactly
one type triple: the prescribed one. -/
theorem type_triple_unique (grNS dboNS fbT : String)
    (tl pl : List (String × String)) (entities : List Entity)
    (rels : List RelRow) (e : Entity) (he : e ∈ entities)
    (hnd : (entities.map (entityUriOf grNS)).Nodup)
    (hpv : ∀ v ∈ pl.map Prod.snd, v ≠ rdfType)
    (hfb : dboNS ++ "wikiPageWikiLink" ≠ rdfType) :
    (entityUriOf grNS e, rdfType, typeObjOf fbT tl e) ∈
      (convert_to_rdf grNS dboNS fbT tl pl entities rels).graph ∧
    ∀ o : RDFNode,
      (entityUriOf grNS e, rdfType, o) ∈
        (convert_to_rdf grNS dboNS fbT tl pl entities rels).graph →
      o = typeObjOf fbT tl e := by
  have hgr : (convert_to_rdf grNS dboNS fbT tl pl entities rels).graph =
      (rels.foldl (addRel dboNS pl
        (entities.foldl (addEntity grNS fbT tl)
          { graph := [], lookup := [], added := 0, typed := 0, fb := 0 }).lookup)
        { graph := (entities.foldl (addEntity grNS fbT tl)
            { graph := [], lookup := [], added := 0, typed := 0, fb := 0 }).graph,
          added := 0, skipped := 0 }).graph := rfl
  constructor
  · rw [hgr]
    apply relFold_graph_mono
    exact entityFold_type_mem grNS fbT tl entities _ e he
  · intro o hmem
    rw [hgr] at hmem
    rcases relFold_graph_shape dboNS pl _ rels _ _ hmem with h1 | h1 | h1
    · rcases entityFold_graph_shape grNS fbT tl entities _ _ h1 with h2 | ⟨e2, he2, h2 | h2⟩
      · cases h2
      · exfalso
        simp only [Prod.mk.injEq] at h2
        have : rdfType ≠ rdfsLabel := by decide
        exact this h2.2.1
      · simp only [Prod.mk.injEq] at h2
        have hee : e = e2 :=
          List.inj_on_of_nodup_map hnd he he2 h2.1
        rw [h2.2.2, hee]
    · exact absurd rfl (hpv rdfType h1)
    · exact absurd h1.symm hfb

/-- Witness for C5 at a concrete assembly run: one registered type, one
empty type (fallback), distinct derived node identifiers. -/
theorem type_triple_unique_witness :
    ({ id := "1", name := "A", original_type := "T" } ∈
      ([{ id := "1", name := "A", original_type := "T" },
        { id := "2", name := "B", original_type := "" }] : List Entity)) ∧
    (([{ id := "1", name := "A", original_type := "T" },
       { id := "2", name := "B", original_type := "" }] : List Entity).map
      (entityUriOf "http://ex/")).Nodup ∧
    ((entityUriOf "http://ex/" { id := "1", name := "A", original_type := "T" },
        rdfType,
        typeObjOf "http://owl/Thing" [("T", "http://dbo/X")]
          { id := "1", name := "A", original_type := "T" }) ∈
      (convert_to_rdf "http://ex/" "http://dbo/" "http://owl/Thing"
        [("T", "http://dbo/X")] [("likes", "http://dbo/likes")]
        [{ id := "1", name := "A", original_type := "T" },
         { id := "2", name := "B", original_type := "" }]
        [{ source := "A", target := "B", original_description := "likes" }]).graph ∧
    ∀ o : RDFNode,
      (entityUriOf "http://ex/" { id := "1", name := "A", original_type := "T" },
        rdfType, o) ∈
        (convert_to_rdf "http://ex/" "http://dbo/" "http://owl/Thing"
          [("T", "http://dbo/X")] [("likes", "http://dbo/likes")]
          [{ id := "1", name := "A", original_type := "T" },
           { id := "2", name := "B", original_type := "" }]
          [{ source := "A", target := "B", original_description := "likes" }]).graph →
      o = typeObjOf "http://owl/Thing" [("T", "http://dbo/X")]
        { id := "1", name := "A", original_type := "T" }) := by
  refine ⟨by decide, by decide, ?_⟩
  exact type_triple_unique "http://ex/" "http://dbo/" "http://owl/Thing"
    [("T", "http://dbo/X")] [("likes", "http://dbo/likes")]
    [{ id := "1", name := "A", original_type := "T" },
     { id := "2", name := "B", original_type := "" }]
    [{ source := "A", target := "B", original_description := "likes" }]
    { id := "1", name := "A", original_type := "T" }
    (by decide) (by decide) (by decide) (by decide)
